import Mathlib

/-!
Verification development for news2rss (src/news2rss.py), a single-file HTTP
server that turns NewsAPI data into RSS feeds.  The Python functions that the
claims concern are shallowly embedded as executable Lean definitions:

* the path-query parsing and integer-coercion block of `get_feed_sources`
  (lines 213-268 of the source),
* the nested `get_query_description` helper (lines 217-245),
* the feed synthesizer `_feed_rss` (lines 62-191).

Python `dict`s over string keys are modelled as association lists with the
dict operations (assignment, `del`, membership, subscript) as functions that
treat keys as unique; JSON-ish records are modelled as structures in which an
outer `Option` marks key presence and, where the code inspects truthiness of
a nullable value, an inner `Option` marks JSON `null`.
-/

set_option maxRecDepth 4000

namespace News2RSS

/-- A value held in the query mapping: path parsing produces strings and the
coercion block of `get_feed_sources` turns `page` / `page_size` into ints. -/
inductive QVal where
  | strV : String → QVal
  | intV : Int → QVal
deriving DecidableEq, Repr

/-- Python dict lookup `m[k]` / `k in m` over an association list (keys are
unique in lists built by `dictOfPairs`, and the operations below preserve
that; lookup returns the first binding). -/
def lookupA {α : Type} : List (String × α) → String → Option α
  | [], _ => none
  | p :: ps, k => if p.1 = k then some p.2 else lookupA ps k

/-- Python dict assignment `m[k] = v`: replace the binding in place if the
key exists, otherwise append a new binding. -/
def insertA {α : Type} : List (String × α) → String → α → List (String × α)
  | [], k, v => [(k, v)]
  | p :: ps, k, v => if p.1 = k then (k, v) :: ps else p :: insertA ps k v

/-- Python `del m[k]`: remove the bindings of the key. -/
def eraseA {α : Type} (m : List (String × α)) (k : String) : List (String × α) :=
  m.filter (fun p => p.1 ≠ k)

/-- Python `", ".join(l)`. -/
def joinComma : List String → String
  | [] => ""
  | [s] => s
  | s :: rest => s ++ ", " ++ joinComma rest

/-- Split a character list at every occurrence of the separator character;
the result is always non-empty (splitting the empty list yields `[[]]`). -/
def splitCharL (c : Char) : List Char → List (List Char)
  | [] => [[]]
  | x :: xs =>
    let r := splitCharL c xs
    if x = c then [] :: r
    else
      match r with
      | y :: ys => (x :: y) :: ys
      | [] => [[x]]

/-- Python `s.split(c)` for a one-character separator: `"".split(c) = [""]`,
`"a,,b".split(",") = ["a", "", "b"]`. -/
def pySplit (c : Char) (s : String) : List String :=
  (splitCharL c s.data).map String.mk

/-- ASCII whitespace accepted around a Python integer literal. -/
def isSpace (c : Char) : Bool :=
  c = ' ' || c = '\t' || c = '\n' || c = '\r' || c = '\x0b' || c = '\x0c'

/-- Strip whitespace from both ends of a character list. -/
def trimL (l : List Char) : List Char :=
  ((l.dropWhile isSpace).reverse.dropWhile isSpace).reverse

/-- Accumulate the value of a digit run, allowing a single `_` between two
digits as Python's `int` does. -/
def digitsGo : Nat → List Char → Option Nat
  | acc, [] => some acc
  | acc, c :: cs =>
    if c.isDigit then digitsGo (acc * 10 + (c.toNat - 48)) cs
    else if c = '_' then
      match cs with
      | d :: _ => if d.isDigit then digitsGo acc cs else none
      | [] => none
    else none

/-- Parse a non-empty digit run (underscore grouping allowed). -/
def digitsVal : List Char → Option Nat
  | [] => none
  | c :: cs => if c.isDigit then digitsGo 0 (c :: cs) else none

/-- Python `int(s)` on a string (ASCII model): surrounding whitespace is
stripped, an optional sign precedes a non-empty digit run; `none` models the
`ValueError` that the coercion block of `get_feed_sources` catches. -/
def pyToInt (s : String) : Option Int :=
  match trimL s.data with
  | '-' :: rest => (digitsVal rest).map (fun n => -(n : Int))
  | '+' :: rest => (digitsVal rest).map (fun n => (n : Int))
  | rest => (digitsVal rest).map (fun n => (n : Int))

/-- Python `int(v)` on a query value: an int is returned unchanged, a string
is parsed. -/
def pyIntOfValue : QVal → Option Int
  | .intV n => some n
  | .strV s => pyToInt s

/-!  Path Query Parser (get_feed_sources, lines 213-215 and 253-268). -/

/-- The `dict(zip(it, it))` pairing over one iterator: even-index tokens are
keys, odd-index tokens are values, and a trailing unmatched token is
silently dropped by `zip`. -/
def pairTokens : List String → List (String × String)
  | a :: b :: rest => (a, b) :: pairTokens rest
  | _ => []

/-- Build the query dict from the (key, value) pairs; a repeated key keeps
the first position with the last value, as Python `dict` does. -/
def dictOfPairs (ps : List (String × String)) : List (String × String) :=
  ps.foldl (fun m p => insertA m p.1 p.2) []

/-- The query mapping `get_feed_sources` builds from the `query_path` tail:
split on `/`, then pair consecutive tokens. -/
def parse_query_path (tail : String) : List (String × String) :=
  dictOfPairs (pairTokens (pySplit '/' tail))

/-- One `try: query[k] = int(query[k]) except ValueError: del query[k]`
block of `get_feed_sources` (the code repeats it for `page_size` and
`page`). -/
def castKey (k : String) (q : List (String × QVal)) : List (String × QVal) :=
  match lookupA q k with
  | none => q
  | some v =>
    match pyIntOfValue v with
    | some n => insertA q k (QVal.intV n)
    | none => eraseA q k

/-- The full "Cast integer values" block of `get_feed_sources` (lines
253-268): coerce `page_size`, then `page`, then default `page_size` to 100
when absent. -/
def coerceQuery (query : List (String × String)) : List (String × QVal) :=
  let q0 : List (String × QVal) := query.map (fun p => (p.1, QVal.strV p.2))
  let q2 := castKey "page" (castKey "page_size" q0)
  match lookupA q2 "page_size" with
  | none => insertA q2 "page_size" (QVal.intV 100)
  | some _ => q2

/-!  Data model of the records the synthesizer reads. -/

/-- An entry of the Source Directory (`newsapi._sources_cache`, a list of
source dicts fetched from the provider at startup).  `id` is the lookup key
and is accessed with a bare subscript by the code; `name`, `url`,
`description`, `category` and `language` are presence-checked before use,
hence optional here. -/
structure SourceMeta where
  id : String
  name : Option String
  url : Option String
  description : Option String
  category : Option String
  language : Option String
deriving DecidableEq, Repr

/-- The `source` sub-record of an article: the provider always ships both
keys, with possibly-null values (`none` models JSON null / Python `None`). -/
structure SourceRef where
  id : Option String
  name : Option String
deriving DecidableEq, Repr

/-- An article record as `_feed_rss` reads it.  The outer `Option` marks key
presence (the code tests `"k" in article`); for `author`, `url` and
`publishedAt` an inner `Option` marks a null value, since the code also
tests truthiness of those values. -/
structure Article where
  title : Option String
  content : Option String
  description : Option String
  author : Option (Option String)
  url : Option (Option String)
  publishedAt : Option (Option String)
  source : Option SourceRef
deriving DecidableEq, Repr

/-- One feed entry as assembled by the loop of `_feed_rss`: required fields
are set unconditionally, `author` (with the fixed placeholder e-mail) and
`link` only when present and truthy, `pubDate` whenever the key is
present. -/
structure FeedEntry where
  title : String
  content : String
  description : String
  author : Option String
  authorEmail : Option String
  link : Option String
  pubDate : Option (Option String)
deriving DecidableEq, Repr

/-- The feed-level fields set by `set_feed_meta` plus the entry list. -/
structure Feed where
  title : String
  link : String
  description : String
  fid : Option String
  category : Option QVal
  language : Option QVal
  entries : List FeedEntry
deriving DecidableEq, Repr

/-- The `query_meta` dict: canonical request URL and derived description. -/
structure QueryMeta where
  url : String
  description : String
deriving DecidableEq, Repr

/-- How a `_feed_rss` invocation can fail: `abort401` is bottle's
`abort(401, msg)` (a clean HTTP error), `keyErrorSource` is the unhandled
Python `KeyError` raised by the bare `article["source"]` subscript. -/
inductive RErr where
  | abort401 : String → RErr
  | keyErrorSource : RErr
deriving DecidableEq, Repr

/-- Truthiness of a nullable string: Python `None` and `""` are falsy. -/
def truthyN : Option String → Bool
  | none => false
  | some s => s ≠ ""

/-- Python `"%s" % v` on a nullable string: `str(None) = "None"`. -/
def pyStr : Option String → String
  | none => "None"
  | some s => s

/-- Python `==` between a `str` and a source dict: always `False`, because
equality across unrelated types never holds.  This makes the membership
tests `s in newsapi._sources_cache` (line 223) and `source["id"] in
sources_cache` (line 177) constantly false — the cache is a *list* of
dicts, so these tests compare an id string against each dict. -/
def pyStrEqDict (_ : String) (_ : SourceMeta) : Bool := false

/-- Marker for the two branches that subscript the cache list with a string
id (`sources_cache[s]["name"]`): Python would raise a `TypeError` there.
The branches are unreachable because `pyStrEqDict` is constantly false. -/
def deadListStrIndex : String := "TypeError"

/-!  Query Description Builder (get_query_description, lines 217-245). -/

/-- The nested `get_query_description` helper of `get_feed_sources`.
`countryTable` stands for the pycountry alpha-2 lookup already composed
with `.name` (the code upper-cases the query value before the lookup and
falls back to the raw value when the lookup fails). -/
def get_query_description (countryTable : String → Option String)
    (sources_cache : List SourceMeta) (query : List (String × String)) : String :=
  let tokens : List String :=
    (match lookupA query "sources" with
     | some srcs =>
       let sources_names := (pySplit ',' srcs).map (fun s =>
         if sources_cache.any (fun m => pyStrEqDict s m) then deadListStrIndex
         else s)
       ["from " ++ joinComma sources_names]
     | none =>
       (match lookupA query "country" with
        | some c => ["from country '" ++ ((countryTable c.toUpper).getD c) ++ "'"]
        | none => []) ++
       (match lookupA query "category" with
        | some cat => ["in category '" ++ cat ++ "'"]
        | none => [])) ++
    (match lookupA query "q" with
     | some q => ["that match '" ++ q ++ "'"]
     | none => [])
  "News articles " ++ joinComma tokens

/-!  Feed Synthesizer (_feed_rss, lines 62-191). -/

/-- Render one article into a feed entry, performing the required-field
checks of the entry loop of `_feed_rss` in source order (title, content,
description, each aborting with 401 when the key is absent). -/
def renderEntry (a : Article) : Except RErr FeedEntry :=
  match a.title with
  | none => .error (.abort401 "an error occurred while adding an entry")
  | some t =>
    match a.content with
    | none => .error (.abort401 "an error occurred while adding an entry")
    | some c =>
      match a.description with
      | none => .error (.abort401 "an error occurred while adding an entry")
      | some d =>
        let author : Option String :=
          match a.author with
          | some (some s) => if s = "" then none else some s
          | _ => none
        let link : Option String :=
          match a.url with
          | some (some s) => if s = "" then none else some s
          | _ => none
        .ok { title := t, content := c, description := d,
              author := author,
              authorEmail := author.map (fun _ => "e@ma.il"),
              link := link,
              pubDate := a.publishedAt }

/-- The entry loop of `_feed_rss`: render each article in order and
accumulate the distinct source sub-records (`if article["source"] not in
sources: sources.append(...)`, deduplication by full-record equality).  The
bare `article["source"]` subscript raises a `KeyError` when the key is
absent. -/
def renderLoop : List Article → List SourceRef → Except RErr (List FeedEntry × List SourceRef)
  | [], sources => .ok ([], sources)
  | a :: rest, sources =>
    match renderEntry a with
    | .error e => .error e
    | .ok entry =>
      match a.source with
      | none => .error .keyErrorSource
      | some src =>
        let sources' := if src ∈ sources then sources else sources ++ [src]
        match renderLoop rest sources' with
        | .error e => .error e
        | .ok (es, ss) => .ok (entry :: es, ss)

/-- The nested `set_feed_meta` helper of `_feed_rss`: set title, link and
description, and the optional id, category and language fields when
supplied. -/
def set_feed_meta (entries : List FeedEntry) (title link description : String)
    (fid : Option String) (category language : Option QVal) : Feed :=
  { title := title, link := link, description := description,
    fid := fid, category := category, language := language, entries := entries }

/-- The single-source lookup of `_feed_rss` (line 127): the first cache
entry whose `id` equals the article source's `id`. -/
def lookupSourceMeta (sources_cache : List SourceMeta) (source : SourceRef) : Option SourceMeta :=
  sources_cache.find? (fun s => source.id == some s.id)

/-- `source["name"] or source["id"]` formatted with `"%s"` (line 162). -/
def fallbackName (source : SourceRef) : String :=
  match source.name with
  | some s => if s = "" then pyStr source.id else s
  | none => pyStr source.id

/-- The `elif source["id"]:` arm of the multi-source name loop (lines
176-180): a truthy id is looked up in the cache list with the always-false
str-vs-dict membership test, so the raw id is appended; a falsy id appends
nothing. -/
def multiNameId (sources_cache : List SourceMeta) : Option String → List String
  | some i =>
    if i = "" then []
    else if sources_cache.any (fun s => pyStrEqDict i s) then [deadListStrIndex]
    else [i]
  | none => []

/-- One iteration of the multi-source name loop (lines 173-180): a truthy
embedded name wins, otherwise the id arm runs. -/
def multiName (sources_cache : List SourceMeta) (source : SourceRef) : List String :=
  match source.name with
  | some s => if s = "" then multiNameId sources_cache source.id else [s]
  | none => multiNameId sources_cache source.id

/-- The list `sources_names` of the multi-source branch, in source order. -/
def multiNames (sources_cache : List SourceMeta) : List SourceRef → List String
  | [] => []
  | s :: rest => multiName sources_cache s ++ multiNames sources_cache rest

/-- The feed synthesizer `_feed_rss` (lines 62-191).  The returned `Feed` is
the assembled feed object that `feed.rss_str()` then serializes; the
serialization itself belongs to the external feedgen library. -/
def feed_rss (sources_cache : List SourceMeta) (query : List (String × QVal))
    (query_meta : QueryMeta) (articles : List Article) : Except RErr Feed :=
  match renderLoop articles [] with
  | .error e => .error e
  | .ok (entries, sources) =>
    match sources with
    | [] =>
      .ok (set_feed_meta entries query_meta.description query_meta.url
            query_meta.description none
            (lookupA query "category") (lookupA query "language"))
    | [source] =>
      match lookupSourceMeta sources_cache source with
      | some source_meta =>
        match source_meta.name with
        | none => .error (.abort401 "an error occurred while generating the feed")
        | some nm =>
          match source_meta.url with
          | none => .error (.abort401 "an error occurred while generating the feed")
          | some u =>
            match source_meta.description with
            | none => .error (.abort401 "an error occurred while generating the feed")
            | some d =>
              .ok (set_feed_meta entries nm u d (some source_meta.id)
                    (source_meta.category.map QVal.strV)
                    (source_meta.language.map QVal.strV))
      | none =>
        .ok (set_feed_meta entries query_meta.description query_meta.url
              ("News articles from " ++ fallbackName source) none none none)
    | _ :: _ :: _ =>
      .ok (set_feed_meta entries query_meta.description query_meta.url
            ("News articles from " ++ joinComma (multiNames sources_cache sources))
            none
            (lookupA query "category") (lookupA query "language"))

/-!  Substring occurrence, used to state "the clause appears in the
description". -/

/-- Boolean prefix test on character lists. -/
def isPrefixL : List Char → List Char → Bool
  | [], _ => true
  | _ :: _, [] => false
  | a :: as, b :: bs => a = b && isPrefixL as bs

/-- Boolean infix (substring) test on character lists. -/
def hasSubL (n : List Char) : List Char → Bool
  | [] => isPrefixL n []
  | c :: t => isPrefixL n (c :: t) || hasSubL n t

/-- `strHasSub n h` holds when `n` occurs contiguously inside `h`. -/
def strHasSub (n h : String) : Bool :=
  hasSubL n.data h.data

theorem isPrefixL_append (n t : List Char) : isPrefixL n (n ++ t) = true := by
  induction n with
  | nil => rfl
  | cons a as ih => simp [isPrefixL, ih]

theorem hasSubL_decomp (n p t : List Char) : hasSubL n (p ++ n ++ t) = true := by
  induction p with
  | nil =>
    show hasSubL n (n ++ t) = true
    cases h : n ++ t with
    | nil =>
      have hn : n = [] := (List.append_eq_nil.mp h).1
      rw [hn]
      rfl
    | cons c cs =>
      show (isPrefixL n (c :: cs) || hasSubL n cs) = true
      rw [← h, isPrefixL_append]
      rfl
  | cons a as ih =>
    show (isPrefixL n (a :: (as ++ n ++ t)) || hasSubL n (as ++ n ++ t)) = true
    rw [ih, Bool.or_true]

theorem strData_append (a b : String) : (a ++ b).data = a.data ++ b.data := by
  cases a
  cases b
  rfl

theorem strAppend_assoc (a b c : String) : a ++ b ++ c = a ++ (b ++ c) := by
  cases a with
  | mk da =>
    cases b with
    | mk db =>
      cases c with
      | mk dc =>
        show String.mk (da ++ db ++ dc) = String.mk (da ++ (db ++ dc))
        rw [List.append_assoc]

theorem strEmpty_append (a : String) : "" ++ a = a := by
  cases a
  rfl

theorem strAppend_empty (a : String) : a ++ "" = a := by
  cases a with
  | mk da =>
    show String.mk (da ++ []) = String.mk da
    rw [List.append_nil]

theorem strHasSub_decomp (n p t : String) : strHasSub n (p ++ n ++ t) = true := by
  show hasSubL n.data (p ++ n ++ t).data = true
  rw [strData_append, strData_append]
  exact hasSubL_decomp n.data p.data t.data

theorem joinComma_mem_decomp (t : String) (l : List String) (h : t ∈ l) :
    ∃ p s, joinComma l = p ++ t ++ s := by
  induction l with
  | nil => cases h
  | cons a rest ih =>
    rcases List.mem_cons.mp h with rfl | hmem
    · cases rest with
      | nil => exact ⟨"", "", by simp [joinComma, strEmpty_append, strAppend_empty]⟩
      | cons b bs =>
        exact ⟨"", ", " ++ joinComma (b :: bs),
          by simp only [joinComma, strEmpty_append, strAppend_assoc]⟩
    · rcases ih hmem with ⟨p, s, hps⟩
      cases rest with
      | nil => cases hmem
      | cons b bs =>
        refine ⟨a ++ ", " ++ p, s, ?_⟩
        show a ++ ", " ++ joinComma (b :: bs) = a ++ ", " ++ p ++ t ++ s
        rw [hps]
        simp only [strAppend_assoc]

/-!  Association-list lemmas for the dict operations. -/

theorem lookupA_insertA_self {α : Type} (m : List (String × α)) (k : String) (v : α) :
    lookupA (insertA m k v) k = some v := by
  induction m with
  | nil => simp [insertA, lookupA]
  | cons p ps ih =>
    by_cases h : p.1 = k
    · simp [insertA, h, lookupA]
    · simp [insertA, h, lookupA, ih]

theorem lookupA_insertA_ne {α : Type} (m : List (String × α)) (k k' : String) (v : α)
    (h : k ≠ k') : lookupA (insertA m k v) k' = lookupA m k' := by
  induction m with
  | nil => simp [insertA, lookupA, h]
  | cons p ps ih =>
    by_cases hp : p.1 = k
    · simp [insertA, hp, lookupA, h, Ne.symm h]
    · by_cases hp' : p.1 = k'
      · simp [insertA, hp, lookupA, hp', Ne.symm h]
      · simp [insertA, hp, lookupA, hp', ih]

theorem eraseA_cons_self {α : Type} (p : String × α) (ps : List (String × α)) (k : String)
    (h : p.1 = k) : eraseA (p :: ps) k = eraseA ps k := by
  simp [eraseA, List.filter_cons, h]

theorem eraseA_cons_ne {α : Type} (p : String × α) (ps : List (String × α)) (k : String)
    (h : ¬p.1 = k) : eraseA (p :: ps) k = p :: eraseA ps k := by
  simp [eraseA, List.filter_cons, h]

theorem lookupA_eraseA_self {α : Type} (m : List (String × α)) (k : String) :
    lookupA (eraseA m k) k = none := by
  induction m with
  | nil => simp [eraseA, lookupA]
  | cons p ps ih =>
    by_cases h : p.1 = k
    · rw [eraseA_cons_self p ps k h]
      exact ih
    · rw [eraseA_cons_ne p ps k h]
      simp [lookupA, h, ih]

theorem lookupA_eraseA_ne {α : Type} (m : List (String × α)) (k k' : String)
    (h : k ≠ k') : lookupA (eraseA m k) k' = lookupA m k' := by
  induction m with
  | nil => simp [eraseA, lookupA]
  | cons p ps ih =>
    by_cases hp : p.1 = k
    · have hp' : p.1 ≠ k' := by rw [hp]; exact h
      rw [eraseA_cons_self p ps k hp]
      simp [lookupA, hp', ih]
    · rw [eraseA_cons_ne p ps k hp]
      by_cases hp' : p.1 = k'
      · simp [lookupA, hp']
      · simp [lookupA, hp', ih]

theorem lookupA_map_strV (m : List (String × String)) (k : String) :
    lookupA (m.map (fun p => (p.1, QVal.strV p.2))) k = (lookupA m k).map QVal.strV := by
  induction m with
  | nil => simp [lookupA]
  | cons p ps ih =>
    by_cases h : p.1 = k
    · simp [lookupA, h]
    · simp [lookupA, h, ih]

theorem lookupA_castKey_same (q : List (String × QVal)) (k : String) :
    lookupA (castKey k q) k =
      match lookupA q k with
      | none => none
      | some v => (pyIntOfValue v).map QVal.intV := by
  unfold castKey
  cases h : lookupA q k with
  | none => simp [h]
  | some v =>
    cases hv : pyIntOfValue v with
    | none => simp [hv, lookupA_eraseA_self]
    | some n => simp [hv, lookupA_insertA_self]

theorem lookupA_castKey_ne (q : List (String × QVal)) (k k' : String) (h : k ≠ k') :
    lookupA (castKey k q) k' = lookupA q k' := by
  unfold castKey
  cases hq : lookupA q k with
  | none => rfl
  | some v =>
    cases hv : pyIntOfValue v with
    | none => simp [hv, lookupA_eraseA_ne _ _ _ h]
    | some n => simp [hv, lookupA_insertA_ne _ _ _ _ h]

/-- After the coercion-and-default block, `page_size` is present and holds
the coerced integer, or 100 when the key was absent or unparseable. -/
theorem lookupA_coerceQuery_page_size (query : List (String × String)) :
    lookupA (coerceQuery query) "page_size" =
      some (QVal.intV (match lookupA query "page_size" with
                       | none => 100
                       | some s => match pyToInt s with
                                   | none => 100
                                   | some n => n)) := by
  unfold coerceQuery
  have hps : ("page" : String) ≠ "page_size" := by decide
  cases h : lookupA query "page_size" with
  | none =>
    have h0 : lookupA (query.map (fun p => (p.1, QVal.strV p.2))) "page_size" = none := by
      rw [lookupA_map_strV, h]
      rfl
    have h1 : lookupA (castKey "page_size" (query.map (fun p => (p.1, QVal.strV p.2)))) "page_size" = none := by
      rw [lookupA_castKey_same, h0]
    have h2 : lookupA (castKey "page" (castKey "page_size" (query.map (fun p => (p.1, QVal.strV p.2))))) "page_size" = none := by
      rw [lookupA_castKey_ne _ _ _ hps, h1]
    simp only [h2, lookupA_insertA_self]
  | some s =>
    have h0 : lookupA (query.map (fun p => (p.1, QVal.strV p.2))) "page_size" = some (QVal.strV s) := by
      rw [lookupA_map_strV, h]
      rfl
    have h1 : lookupA (castKey "page_size" (query.map (fun p => (p.1, QVal.strV p.2)))) "page_size" = (pyToInt s).map QVal.intV := by
      rw [lookupA_castKey_same, h0]
      rfl
    cases hp : pyToInt s with
    | none =>
      rw [hp] at h1
      have h2 : lookupA (castKey "page" (castKey "page_size" (query.map (fun p => (p.1, QVal.strV p.2))))) "page_size" = none := by
        rw [lookupA_castKey_ne _ _ _ hps, h1]
        rfl
      simp only [h2, lookupA_insertA_self, hp]
    | some n =>
      rw [hp] at h1
      have h2 : lookupA (castKey "page" (castKey "page_size" (query.map (fun p => (p.1, QVal.strV p.2))))) "page_size" = some (QVal.intV n) := by
        rw [lookupA_castKey_ne _ _ _ hps, h1]
        rfl
      simp only [h2, hp]

/-- After the coercion-and-default block, `page` holds the coerced integer
when its literal parses, and is gone (with no default) when it does not or
was absent. -/
theorem lookupA_coerceQuery_page (query : List (String × String)) :
    lookupA (coerceQuery query) "page" =
      match lookupA query "page" with
      | none => none
      | some s => (pyToInt s).map QVal.intV := by
  unfold coerceQuery
  have h0 := lookupA_map_strV query "page"
  have hps : ("page_size" : String) ≠ "page" := by decide
  have hq2 : lookupA (castKey "page" (castKey "page_size" (query.map (fun p => (p.1, QVal.strV p.2))))) "page" =
      match lookupA query "page" with
      | none => none
      | some s => (pyToInt s).map QVal.intV := by
    rw [lookupA_castKey_same, lookupA_castKey_ne _ _ _ hps, h0]
    cases h : lookupA query "page" with
    | none => rfl
    | some s => rfl
  cases hg : lookupA (castKey "page" (castKey "page_size" (query.map (fun p => (p.1, QVal.strV p.2))))) "page_size" with
  | none => simp only [hg, lookupA_insertA_ne _ _ _ _ hps, hq2]
  | some v => simp only [hg, hq2]

theorem strHasSub_decomp2 (n x p s : String) : strHasSub n (x ++ (p ++ n ++ s)) = true := by
  have h : x ++ (p ++ n ++ s) = (x ++ p) ++ n ++ s := by
    simp only [strAppend_assoc]
  rw [h]
  exact strHasSub_decomp n (x ++ p) s

theorem strHasSub_joinComma (t : String) (l : List String) (x : String) (h : t ∈ l) :
    strHasSub t (x ++ joinComma l) = true := by
  obtain ⟨p, s, hdec⟩ := joinComma_mem_decomp t l h
  rw [hdec]
  exact strHasSub_decomp2 t x p s

/-- The final token of an odd-length token sequence is dropped by the
`dict(zip(it, it))` pairing. -/
theorem pairTokens_odd : ∀ ts : List String, ts.length % 2 = 1 →
    pairTokens ts = pairTokens ts.dropLast
  | [], h => by simp at h
  | [_], _ => rfl
  | a :: b :: rest, h => by
    have h' : rest.length % 2 = 1 := by
      simp only [List.length_cons] at h
      omega
    have ih := pairTokens_odd rest h'
    cases rest with
    | nil => simp at h'
    | cons r rs =>
      have hdl : List.dropLast (a :: b :: r :: rs) = a :: b :: List.dropLast (r :: rs) := rfl
      rw [hdl]
      show (a, b) :: pairTokens (r :: rs) = (a, b) :: pairTokens (List.dropLast (r :: rs))
      rw [ih]

/-!  Concrete fixtures used by the closed theorems below. -/

/-- A pycountry table with no entries: no claim below depends on a country
name resolving. -/
def pcNone : String → Option String := fun _ => none

/-- A Source Directory record for the source id `abc`, named "ABC News". -/
def metaABC : SourceMeta :=
  { id := "abc", name := some "ABC News", url := some "https://abcnews.example",
    description := some "American Broadcasting Company", category := some "general",
    language := some "en" }

/-- A one-entry Source Directory knowing source id `abc` as "ABC News". -/
def cacheABC : List SourceMeta := [metaABC]

/-- C1, counterexample: the query `sources=abc&category=tech` yields the
description "News articles from abc" — the category clause does not appear,
because the category branch sits in the `else` of the sources branch. -/
theorem category_clause_absent_with_sources_cex :
    get_query_description pcNone cacheABC [("sources", "abc"), ("category", "tech")] =
      "News articles from abc" ∧
    strHasSub "in category 'tech'"
      (get_query_description pcNone cacheABC [("sources", "abc"), ("category", "tech")]) = false :=
  ⟨rfl, rfl⟩

/-- C1, amended: for every query containing a `category` filter and no
`sources` filter, the clause `in category '<category>'` appears in the
produced description (independently of `country` and `q`); when `sources`
is present the whole country/category branch is skipped. -/
theorem category_clause_present_without_sources
    (countryTable : String → Option String) (cache : List SourceMeta)
    (query : List (String × String)) (c : String)
    (hs : lookupA query "sources" = none)
    (hc : lookupA query "category" = some c) :
    strHasSub ("in category '" ++ c ++ "'")
      (get_query_description countryTable cache query) = true := by
  simp only [get_query_description, hs, hc]
  exact strHasSub_joinComma _ _ _
    (List.mem_append_left _ (List.mem_append_right _ (List.mem_cons_self _ _)))

/-- C1, witness for the amended theorem at the query `category=tech`. -/
theorem category_clause_present_without_sources_witness :
    lookupA [("category", "tech")] "sources" = none ∧
    strHasSub ("in category '" ++ "tech" ++ "'")
      (get_query_description pcNone cacheABC [("category", "tech")]) = true :=
  ⟨by decide, category_clause_present_without_sources pcNone cacheABC
    [("category", "tech")] "tech" (by decide) (by decide)⟩

/-- C2: with `abc` a known source named "ABC News" and `def` unknown, the
code renders "from abc, def" — never "from ABC News, def" — because the
membership test `s in newsapi._sources_cache` compares the id string
against each source dict of the cache list and is therefore always false;
the name-resolving branch is unreachable. -/
theorem description_sources_lookup_dead :
    get_query_description pcNone cacheABC [("sources", "abc,def")] =
      "News articles from abc, def" := rfl

/-- C3, counterexample: the path tail `page_size/250` parses to a query
whose `page_size` is 250, outside [1,100] — the parser keeps out-of-range
values unclamped. -/
theorem page_size_range_cex :
    lookupA (coerceQuery (parse_query_path "page_size/250")) "page_size" =
      some (QVal.intV 250) ∧
    ¬((1 : Int) ≤ 250 ∧ (250 : Int) ≤ 100) :=
  ⟨by decide, by decide⟩

/-- C3, amended: for every path tail, after coercion and defaulting the
query contains `page_size` with an integer value (100 when absent or
non-numeric, otherwise the parsed literal, unclamped). -/
theorem page_size_always_present_int (tail : String) :
    ∃ n : Int, lookupA (coerceQuery (parse_query_path tail)) "page_size" =
      some (QVal.intV n) :=
  ⟨_, lookupA_coerceQuery_page_size (parse_query_path tail)⟩

/-- C4: post-coercion, `page_size` equals the parsed integer of its literal
when it parses and exactly 100 otherwise (absent or unparseable literal),
while a `page` whose literal does not parse is removed with no default and
an absent `page` stays absent. -/
theorem page_coercion_and_default (query : List (String × String)) :
    lookupA (coerceQuery query) "page_size" =
      some (QVal.intV (match lookupA query "page_size" with
                       | none => 100
                       | some s => match pyToInt s with
                                   | none => 100
                                   | some n => n)) ∧
    lookupA (coerceQuery query) "page" =
      (match lookupA query "page" with
       | none => none
       | some s => (pyToInt s).map QVal.intV) :=
  ⟨lookupA_coerceQuery_page_size query, lookupA_coerceQuery_page query⟩

/-- C5: a path tail splitting into an odd number of tokens parses exactly
as if its final unmatched token were dropped: the pairing silently
truncates, and the query dict is built from the remaining consecutive
(key, value) pairs. -/
theorem odd_tokens_drop_last (tail : String)
    (h : (pySplit '/' tail).length % 2 = 1) :
    pairTokens (pySplit '/' tail) = pairTokens ((pySplit '/' tail).dropLast) ∧
    parse_query_path tail = dictOfPairs (pairTokens ((pySplit '/' tail).dropLast)) := by
  have hp := pairTokens_odd (pySplit '/' tail) h
  exact ⟨hp, by rw [parse_query_path, hp]⟩

/-- C5, witness at the tail `sources/abc/stray` (three tokens). -/
theorem odd_tokens_drop_last_witness :
    (pySplit '/' "sources/abc/stray").length % 2 = 1 ∧
    pairTokens (pySplit '/' "sources/abc/stray") =
      pairTokens ((pySplit '/' "sources/abc/stray").dropLast) :=
  ⟨by decide, (odd_tokens_drop_last "sources/abc/stray" (by decide)).1⟩

/-!  Lemmas about the entry-rendering loop of the synthesizer. -/

/-- The three required article fields are present (as keys). -/
abbrev entryFieldsOK (a : Article) : Prop :=
  a.title ≠ none ∧ a.content ≠ none ∧ a.description ≠ none

/-- An article the entry loop processes without failing: required fields
present and the `source` key present. -/
abbrev entryOK (a : Article) : Prop :=
  entryFieldsOK a ∧ a.source ≠ none

theorem renderEntry_ok_of_fields (a : Article) (h : entryFieldsOK a) :
    ∃ en, renderEntry a = .ok en := by
  obtain ⟨h1, h2, h3⟩ := h
  rcases ht : a.title with _ | t
  · exact absurd ht h1
  rcases hc : a.content with _ | c
  · exact absurd hc h2
  rcases hd : a.description with _ | d
  · exact absurd hd h3
  simp only [renderEntry, ht, hc, hd]
  exact ⟨_, rfl⟩

theorem renderLoop_same_source (src : SourceRef) :
    ∀ articles : List Article,
    (∀ a ∈ articles, entryFieldsOK a ∧ a.source = some src) →
    ∀ sources : List SourceRef, src ∈ sources →
    ∃ es, renderLoop articles sources = .ok (es, sources)
  | [], _, sources, _ => ⟨[], rfl⟩
  | a :: rest, h, sources, hmem => by
    obtain ⟨hf, hsrc⟩ := h a (List.mem_cons_self a rest)
    obtain ⟨en, hen⟩ := renderEntry_ok_of_fields a hf
    obtain ⟨es, hes⟩ := renderLoop_same_source src rest
      (fun b hb => h b (List.mem_cons_of_mem a hb)) sources hmem
    exact ⟨en :: es, by simp [renderLoop, hen, hsrc, hmem, hes]⟩

theorem renderLoop_bad_head (a : Article)
    (h : a.title = none ∨ a.content = none ∨ a.description = none)
    (post : List Article) (acc : List SourceRef) :
    renderLoop (a :: post) acc = .error (.abort401 "an error occurred while adding an entry") := by
  rcases h with h | h | h
  · simp [renderLoop, renderEntry, h]
  · cases ht : a.title with
    | none => simp [renderLoop, renderEntry, ht]
    | some t => simp [renderLoop, renderEntry, ht, h]
  · cases ht : a.title with
    | none => simp [renderLoop, renderEntry, ht]
    | some t =>
      cases hc : a.content with
      | none => simp [renderLoop, renderEntry, ht, hc]
      | some c => simp [renderLoop, renderEntry, ht, hc, h]

theorem renderLoop_nosource_head (a : Article)
    (h1 : a.title ≠ none) (h2 : a.content ≠ none) (h3 : a.description ≠ none)
    (hs : a.source = none) (post : List Article) (acc : List SourceRef) :
    renderLoop (a :: post) acc = .error .keyErrorSource := by
  obtain ⟨en, hen⟩ := renderEntry_ok_of_fields a ⟨h1, h2, h3⟩
  simp [renderLoop, hen, hs]

theorem renderLoop_error_mono :
    ∀ pre : List Article, (∀ b ∈ pre, entryOK b) →
    ∀ (l : List Article) (err : RErr), (∀ acc, renderLoop l acc = .error err) →
    ∀ acc, renderLoop (pre ++ l) acc = .error err
  | [], _, _, _, hl, acc => hl acc
  | b :: pre', h, l, err, hl, acc => by
    obtain ⟨hf, hsne⟩ := h b (List.mem_cons_self b pre')
    obtain ⟨sb, hsb⟩ := Option.ne_none_iff_exists'.mp hsne
    obtain ⟨en, hen⟩ := renderEntry_ok_of_fields b hf
    have ih := renderLoop_error_mono pre'
      (fun x hx => h x (List.mem_cons_of_mem b hx)) l err hl
    simp [renderLoop, hen, hsb, ih]

/-!  Further fixtures for the feed-level theorems. -/

/-- A fixed query-meta pair. -/
def qmQ : QueryMeta := { url := "http://q", description := "News articles " }

/-- A fully valid article whose source is the known id `abc`. -/
def articleT : Article :=
  { title := some "t", content := some "c", description := some "d",
    author := none, url := none, publishedAt := none,
    source := some ⟨some "abc", some "ABC News"⟩ }

/-- An article whose source has the known id `abc` but an empty (falsy)
embedded name. -/
def articleA : Article :=
  { title := some "t1", content := some "c1", description := some "d1",
    author := none, url := none, publishedAt := none,
    source := some ⟨some "abc", some ""⟩ }

/-- An article from a distinct, unknown source named "Y". -/
def articleB : Article :=
  { title := some "t2", content := some "c2", description := some "d2",
    author := none, url := none, publishedAt := none,
    source := some ⟨some "xyz", some "Y"⟩ }

/-- A valid article except that the `description` key is missing. -/
def articleNoDesc : Article :=
  { title := some "t", content := some "c", description := none,
    author := none, url := none, publishedAt := none,
    source := some ⟨some "xyz", some "Y"⟩ }

/-- An article with every field present except the `source` key. -/
def articleNoSource : Article :=
  { title := some "t", content := some "c", description := some "d",
    author := some (some "au"), url := some (some "http://x"),
    publishedAt := some (some "2020-01-01T00:00:00Z"), source := none }

/-- C6: when all articles of a non-empty list share one source sub-record
whose id resolves in the Source Directory to a record with name, url and
description present, the feed takes its title, link, description, id,
category and language from that directory record (not from the query
metadata). -/
theorem single_known_source_meta
    (cache : List SourceMeta) (query : List (String × QVal)) (qm : QueryMeta)
    (a0 : Article) (rest : List Article) (src : SourceRef)
    (m : SourceMeta) (nm u d : String)
    (hall : ∀ a ∈ a0 :: rest, entryFieldsOK a ∧ a.source = some src)
    (hmeta : lookupSourceMeta cache src = some m)
    (hnm : m.name = some nm) (hu : m.url = some u) (hd : m.description = some d) :
    ∃ f, feed_rss cache query qm (a0 :: rest) = .ok f ∧
      f.title = nm ∧ f.link = u ∧ f.description = d ∧
      f.fid = some m.id ∧ f.category = m.category.map QVal.strV ∧
      f.language = m.language.map QVal.strV := by
  obtain ⟨hf0, hs0⟩ := hall a0 (List.mem_cons_self a0 rest)
  obtain ⟨en, hen⟩ := renderEntry_ok_of_fields a0 hf0
  obtain ⟨es, hes⟩ := renderLoop_same_source src rest
    (fun b hb => hall b (List.mem_cons_of_mem a0 hb)) [src] (List.mem_cons_self src [])
  have hloop : renderLoop (a0 :: rest) [] = .ok (en :: es, [src]) := by
    simp [renderLoop, hen, hs0, hes]
  refine ⟨set_feed_meta (en :: es) nm u d (some m.id)
    (m.category.map QVal.strV) (m.language.map QVal.strV), ?_, rfl, rfl, rfl, rfl, rfl, rfl⟩
  simp only [feed_rss, hloop, hmeta, hnm, hu, hd]

/-- C6, witness: one article from the known source `abc`. -/
theorem single_known_source_meta_witness :
    (∀ a ∈ [articleT], entryFieldsOK a ∧ a.source = some ⟨some "abc", some "ABC News"⟩) ∧
    lookupSourceMeta cacheABC ⟨some "abc", some "ABC News"⟩ = some metaABC ∧
    ∃ f, feed_rss cacheABC [] qmQ [articleT] = .ok f ∧
      f.title = "ABC News" ∧ f.link = "https://abcnews.example" ∧
      f.description = "American Broadcasting Company" ∧
      f.fid = some metaABC.id ∧ f.category = metaABC.category.map QVal.strV ∧
      f.language = metaABC.language.map QVal.strV :=
  ⟨by decide, by decide,
    single_known_source_meta cacheABC [] qmQ articleT [] ⟨some "abc", some "ABC News"⟩
      metaABC "ABC News" "https://abcnews.example" "American Broadcasting Company"
      (by decide) (by decide) (by decide) (by decide) (by decide)⟩

/-- C7: with two distinct sources — `abc` known to the directory as
"ABC News" but carrying a falsy embedded name, and an unknown source named
"Y" — the feed description joins the raw id `abc` with `Y`: the
directory-lookup step of the claimed name-resolution order never fires,
because `source["id"] in sources_cache` compares a string against the
dicts of the cache list and is always false. -/
theorem multi_source_names_skip_directory :
    metaABC.name = some "ABC News" ∧
    (feed_rss cacheABC [] qmQ [articleA, articleB]).toOption.map Feed.description =
      some "News articles from abc, Y" :=
  ⟨rfl, rfl⟩

/-- C8: an article missing one of the required keys `title`, `content` or
`description` makes the synthesizer abort the whole request with the
401-entry error, however many valid articles precede or follow it; no feed
is returned. -/
theorem missing_required_field_fails_request
    (cache : List SourceMeta) (query : List (String × QVal)) (qm : QueryMeta)
    (pre : List Article) (a : Article) (post : List Article)
    (hpre : ∀ b ∈ pre, entryOK b)
    (hbad : a.title = none ∨ a.content = none ∨ a.description = none) :
    feed_rss cache query qm (pre ++ a :: post) =
      .error (.abort401 "an error occurred while adding an entry") := by
  have hloop := renderLoop_error_mono pre hpre (a :: post) _
    (fun acc => renderLoop_bad_head a hbad post acc) []
  simp [feed_rss, hloop]

/-- C8, witness: a valid article, then one missing `description`, then
another valid article. -/
theorem missing_required_field_fails_request_witness :
    (∀ b ∈ [articleT], entryOK b) ∧
    (articleNoDesc.title = none ∨ articleNoDesc.content = none ∨
      articleNoDesc.description = none) ∧
    feed_rss cacheABC [] qmQ ([articleT] ++ articleNoDesc :: [articleT]) =
      .error (.abort401 "an error occurred while adding an entry") :=
  ⟨by decide, by decide,
    missing_required_field_fails_request cacheABC [] qmQ [articleT] articleNoDesc
      [articleT] (by decide) (by decide)⟩

/-- C10: an article with every required field present but no `source` key
makes the synthesizer fail with the unhandled `KeyError` raised by the bare
`article["source"]` subscript — a different failure from the clean
`abort(401, ...)` used for missing title/content/description. -/
theorem missing_source_key_unhandled
    (cache : List SourceMeta) (query : List (String × QVal)) (qm : QueryMeta)
    (pre : List Article) (a : Article) (post : List Article)
    (hpre : ∀ b ∈ pre, entryOK b)
    (h1 : a.title ≠ none) (h2 : a.content ≠ none) (h3 : a.description ≠ none)
    (hs : a.source = none) :
    feed_rss cache query qm (pre ++ a :: post) = .error .keyErrorSource ∧
    ∀ msg, (RErr.keyErrorSource ≠ RErr.abort401 msg) := by
  have hloop := renderLoop_error_mono pre hpre (a :: post) _
    (fun acc => renderLoop_nosource_head a h1 h2 h3 hs post acc) []
  exact ⟨by simp [feed_rss, hloop], fun msg h => RErr.noConfusion h⟩

/-- C10, witness: a fully populated article lacking only `source`. -/
theorem missing_source_key_unhandled_witness :
    articleNoSource.source = none ∧
    feed_rss cacheABC [] qmQ ([] ++ articleNoSource :: []) = .error .keyErrorSource :=
  ⟨by decide,
    (missing_source_key_unhandled cacheABC [] qmQ [] articleNoSource []
      (by decide) (by decide) (by decide) (by decide) (by decide)).1⟩

end News2RSS
